import Mathlib

/-!
Shallow embedding of the picbox repository's core:
the Dropbox save-url job submission with capped linear-backoff retry
(src/unnamed/part_000, `Dropbox.prototype.saveUrlP` / `saveUrl`), and the
redis-backed dedup cache and saved-counters
(src/app/storage/index.js, `Storage.prototype.*`).
-/

namespace Picbox

/-! ## Dropbox client (src/unnamed/part_000) -/

/-- Configuration passed to the `Dropbox` constructor. -/
structure DropboxConfig where
  client_id : String
  client_secret : String
  redirect_uri : String

/-- State stored by the `Dropbox` constructor: the config fields plus the
retry ceiling `this.maxRetry = 5`. -/
structure Dropbox where
  clientID : String
  clientSecret : String
  redirectUri : String
  maxRetry : Nat

/-- `var Dropbox = function (config) {...}`: copies config fields and sets
`maxRetry` to 5. -/
def Dropbox.init (config : DropboxConfig) : Dropbox :=
  { clientID := config.client_id
    clientSecret := config.client_secret
    redirectUri := config.redirect_uri
    maxRetry := 5 }

/-- A parsed JSON response body from the provider's save_url endpoint.
The code inspects only `body.error` (via `hasOwnProperty('error')`); on
success it resolves the whole body, whose sample shape is
`{"status": "PENDING", "job": "1mYs8ReIEScAAAAAAAAmIQ"}`. -/
structure Body where
  error : Option String
  status : Option String
  job : Option String
deriving DecidableEq

/-- A raw provider response for one network call: either a body that parses
as JSON, or a body that fails `JSON.parse` (kept as the raw text). -/
inductive RawResponse where
  | invalid (raw : String)
  | valid (body : Body)
deriving DecidableEq

/-- Outcome of one invocation of the save-url operation. -/
inductive SaveResult where
  /-- `JSON.parse` threw; the parse error is passed to the callback. -/
  | malformed (raw : String)
  /-- `new Error('Retries failed')`. -/
  | retriesFailed
  /-- `new Error(body.error)` for a non-lock error message. -/
  | permanentError (msg : String)
  /-- the whole parsed body is resolved. -/
  | ok (body : Body)
deriving DecidableEq

/-- Boolean test that the first list is an initial segment of the second. -/
def isPrefixOfL : List Char → List Char → Bool
  | [], _ => true
  | _ :: _, [] => false
  | a :: as, b :: bs => a == b && isPrefixOfL as bs

/-- Substring occurrence test on character lists, used to model
JavaScript's `haystack.indexOf(needle) >= 0`. -/
def containsSub : List Char → List Char → Bool
  | need, [] => isPrefixOfL need []
  | need, c :: cs => isPrefixOfL need (c :: cs) || containsSub need cs

/-- `body.error.indexOf('Failed to grab locks') >= 0`: the classification of
a provider error message as the transient lock-contention error. -/
def hasLockError (msg : String) : Bool :=
  containsSub "Failed to grab locks".toList msg.toList

/-- The retry loop of `saveUrlP` / `saveUrl`, instrumented with the number
of provider calls made and the list of backoff delays (in ms) requested, in
order.  `provider n` is the response to the `n`-th network call of this run,
`retry` is `params.retry`, and `fuel` bounds the recursion depth (the
JavaScript recursion is unbounded, so a run that exceeds its fuel yields
`none`). Each call consumes one unit of fuel:

* a body failing `JSON.parse` is a hard error (`cb(e)`);
* a body with an `error` field containing `'Failed to grab locks'`
  increments `params.retry`; if the incremented count equals `maxRetry` the
  run rejects with `'Retries failed'`, otherwise it waits
  `300 * params.retry` ms and retries with the mutated count;
* any other `error` message rejects immediately with that message;
* a body with no `error` field resolves the body. -/
def saveUrlRun (maxRetry : Nat) (provider : Nat → RawResponse) :
    Nat → Nat → Nat → Option (SaveResult × Nat × List Nat)
  | 0, _, _ => none
  | fuel + 1, attempt, retry =>
    match provider attempt with
    | RawResponse.invalid raw => some (SaveResult.malformed raw, 1, [])
    | RawResponse.valid body =>
      match body.error with
      | some msg =>
        if hasLockError msg then
          if retry + 1 = maxRetry then
            some (SaveResult.retriesFailed, 1, [])
          else
            (saveUrlRun maxRetry provider fuel (attempt + 1) (retry + 1)).map
              (fun o => (o.1, o.2.1 + 1, 300 * (retry + 1) :: o.2.2))
        else
          some (SaveResult.permanentError msg, 1, [])
      | none => some (SaveResult.ok body, 1, [])

/-- Entry point `Dropbox.prototype.saveUrlP(params)` (the promise variant;
`saveUrl` has the same control flow).  `params.retry = params.retry || 0`
defaults a missing retry count to 0. -/
def Dropbox.saveUrlP (d : Dropbox) (provider : Nat → RawResponse)
    (initRetry : Option Nat) (fuel : Nat) : Option (SaveResult × Nat × List Nat) :=
  saveUrlRun d.maxRetry provider fuel 0 (initRetry.getD 0)

/-- A response whose body parses and carries an `error` message classified
as transient lock contention. -/
def isLockResponse : RawResponse → Bool
  | RawResponse.invalid _ => false
  | RawResponse.valid body =>
    match body.error with
    | some msg => hasLockError msg
    | none => false

/-- A provider that answers every call with the transient lock-contention
error. -/
def alwaysLock (provider : Nat → RawResponse) : Prop :=
  ∀ n, isLockResponse (provider n) = true

/-! ## Storage (src/app/storage/index.js), redis-backed part

The redis keyspace is modelled as two maps: sorted sets (`zsets`, per key a
map from member to score) and plain values (`strs`, used by
INCRBY/GET).  `DEL key` removes the key from both maps, as redis deletes a
key of any type. -/

/-- The redis keyspace state. -/
structure RedisState where
  zsets : String → String → Option Nat
  strs : String → Option Int

/-- The empty keyspace. -/
def emptyRedis : RedisState :=
  { zsets := fun _ _ => none, strs := fun _ => none }

namespace Storage

/-- `this.getRedisCacheKey = function (userID) { return 'picbox.' + userID + '.saved'; }` -/
def getRedisCacheKey (userID : String) : String :=
  "picbox." ++ userID ++ ".saved"

/-- `this.getUserSavedCountKey = function (userID) { return 'picbox.' + userID + '.saved.count'; }` -/
def getUserSavedCountKey (userID : String) : String :=
  "picbox." ++ userID ++ ".saved.count"

/-- `this.totalSavedCountKey = 'picbox.total.saved.count';` -/
def totalSavedCountKey : String :=
  "picbox.total.saved.count"

/-- redis `DEL key`: the key is gone afterwards, whatever its type. -/
def redisDel (st : RedisState) (key : String) : RedisState :=
  { zsets := fun k => if k = key then fun _ => none else st.zsets k
    strs := fun k => if k = key then none else st.strs k }

/-- redis `ZADD key score member ...` member updates, applied left to
right: each `(score, member)` pair sets the member's score, adding the
member if absent and overwriting its score if present. -/
def zaddPairs (zs : String → Option Nat) (pairs : List (Nat × String)) :
    String → Option Nat :=
  pairs.foldl (fun acc p => fun m => if m = p.2 then some p.1 else acc m) zs

/-- redis `ZADD` on the keyspace: only the addressed key's sorted set
changes. -/
def redisZadd (st : RedisState) (key : String) (pairs : List (Nat × String)) :
    RedisState :=
  { st with zsets := fun k => if k = key then zaddPairs (st.zsets key) pairs else st.zsets k }

/-- redis `INCRBY key count`: a missing key is treated as 0; returns the
updated state and the new value (the reply). -/
def redisIncrby (st : RedisState) (key : String) (count : Int) :
    RedisState × Int :=
  let newVal := (st.strs key).getD 0 + count
  ({ st with strs := fun k => if k = key then some newVal else st.strs k }, newVal)

/-- redis `ZSCORE key member`. -/
def redisZscore (st : RedisState) (key member : String) : Option Nat :=
  st.zsets key member

/-- `Storage.prototype.incUserSavedCount`: INCRBY on the user's saved-count
key, resolving `!!reply` (the truthiness of the incremented value). -/
def incUserSavedCount (st : RedisState) (userID : String) (count : Int) :
    RedisState × Bool :=
  let r := redisIncrby st (getUserSavedCountKey userID) count
  (r.1, r.2 != 0)

/-- `Storage.prototype.incTotalSavedCount`: INCRBY on the global key,
resolving `!!reply`. -/
def incTotalSavedCount (st : RedisState) (count : Int) : RedisState × Bool :=
  let r := redisIncrby st totalSavedCountKey count
  (r.1, r.2 != 0)

/-- `Storage.prototype.getTotalSavedCount`: GET on the global key; the raw
reply is resolved (nil for a missing key). -/
def getTotalSavedCount (st : RedisState) : Option Int :=
  st.strs totalSavedCountKey

/-- `Storage.prototype.checkMediaSaved`: ZSCORE on the user's saved-set
key, resolving `!!reply` (present iff a score is returned). -/
def checkMediaSaved (st : RedisState) (userID mediaID : String) : Bool :=
  (redisZscore st (getRedisCacheKey userID) mediaID).isSome

/-- `Storage.prototype.saveLikedMedia`: every id is pushed with the single
score `Date.now()` (the `now` argument here); with `replace === true` the
key is DELeted before the ZADD, otherwise the ZADD alone runs (the
capping of the set to 20 entries is commented out in the source). -/
def saveLikedMedia (st : RedisState) (userID : String) (mediaIDArr : List String)
    (replace : Bool) (now : Nat) : RedisState :=
  let savedLikesKey := getRedisCacheKey userID
  let pairs := mediaIDArr.map (fun mediaID => (now, mediaID))
  if replace then
    redisZadd (redisDel st savedLikesKey) savedLikesKey pairs
  else
    redisZadd st savedLikesKey pairs

/-- `Storage.prototype.deleteLikedCache`: DEL on the user's saved-set key. -/
def deleteLikedCache (st : RedisState) (userID : String) : RedisState :=
  redisDel st (getRedisCacheKey userID)

end Storage

/-- The redis-touching core operations of `Storage`, for reasoning about
operation sequences. -/
inductive CoreOp where
  | incUser (userID : String) (count : Int)
  | incTotal (count : Int)
  | save (userID : String) (ids : List String) (replace : Bool) (now : Nat)
  | delCache (userID : String)

/-- State transition of one core operation (reads leave the state as is and
are omitted). -/
def applyOp (st : RedisState) : CoreOp → RedisState
  | CoreOp.incUser u c => (Storage.incUserSavedCount st u c).1
  | CoreOp.incTotal c => (Storage.incTotalSavedCount st c).1
  | CoreOp.save u ids replace now => Storage.saveLikedMedia st u ids replace now
  | CoreOp.delCache u => Storage.deleteLikedCache st u

/-- Run a sequence of core operations. -/
def runOps (ops : List CoreOp) (st : RedisState) : RedisState :=
  ops.foldl applyOp st

/-- The increment counts of an operation are non-negative (reads and set
operations carry no counts). -/
def CoreOp.nonNeg : CoreOp → Prop
  | CoreOp.incUser _ c => 0 ≤ c
  | CoreOp.incTotal c => 0 ≤ c
  | CoreOp.save _ _ _ _ => True
  | CoreOp.delCache _ => True

/-- The operation inserts media id `m` into user `u`'s saved set. -/
def insertsFor (u m : String) : CoreOp → Prop
  | CoreOp.save u2 ids _ _ => u2 = u ∧ m ∈ ids
  | _ => False

/-- The integer value of a counter key, a missing key reading as 0. -/
def counterVal (st : RedisState) (key : String) : Int :=
  (st.strs key).getD 0

/-- A key addressed by one of the two counter operations. -/
def isCounterKey (k : String) : Prop :=
  (∃ u, k = Storage.getUserSavedCountKey u) ∨ k = Storage.totalSavedCountKey

/-! ## Helper lemmas -/

lemma isLock_elim {resp : RawResponse} (h : isLockResponse resp = true) :
    ∃ body msg, resp = RawResponse.valid body ∧ body.error = some msg ∧
      hasLockError msg = true := by
  cases resp with
  | invalid raw => simp [isLockResponse] at h
  | valid body =>
    cases hb : body.error with
    | none => simp [isLockResponse, hb] at h
    | some msg =>
      refine ⟨body, msg, rfl, hb, ?_⟩
      simpa [isLockResponse, hb] using h

/-- Under an always-lock provider, a run entered with `retry` count `r` and
`r + k + 1 = maxRetry = 5` rejects with `'Retries failed'` after `k + 1`
provider calls, having requested the delays `300*(r+1), ..., 300*(r+k)`. -/
lemma lockRun_exhaust (provider : Nat → RawResponse) (hp : alwaysLock provider) :
    ∀ k a r fuel, r + k + 1 = 5 → k < fuel →
      saveUrlRun 5 provider fuel a r =
        some (SaveResult.retriesFailed, k + 1,
          (List.range k).map (fun i => 300 * (r + i + 1))) := by
  intro k
  induction k with
  | zero =>
    intro a r fuel hr hf
    obtain ⟨fuel, rfl⟩ : ∃ f, fuel = f + 1 := ⟨fuel - 1, by omega⟩
    obtain ⟨body, msg, hpa, hb, hl⟩ := isLock_elim (hp a)
    have hr4 : r = 4 := by omega
    subst hr4
    simp [saveUrlRun, hpa, hb, hl]
  | succ k ih =>
    intro a r fuel hr hf
    obtain ⟨fuel, rfl⟩ : ∃ f, fuel = f + 1 := ⟨fuel - 1, by omega⟩
    obtain ⟨body, msg, hpa, hb, hl⟩ := isLock_elim (hp a)
    have hne : ¬(r + 1 = 5) := by omega
    have hrec := ih (a + 1) (r + 1) fuel (by omega) (by omega)
    simp only [saveUrlRun, hpa, hb, hl, if_true, hne, if_false, hrec, Option.map_some]
    refine congrArg some ?_
    refine congrArg (Prod.mk SaveResult.retriesFailed) ?_
    refine congrArg (Prod.mk (k + 1 + 1)) ?_
    rw [List.range_succ_eq_map, List.map_cons, List.map_map]
    refine congrArg (List.cons (300 * (r + 1))) ?_
    apply List.map_congr_left
    intro i _
    simp [Function.comp]
    ring

/-- Under an always-lock provider, a run entered with `retry` count at or
above the ceiling never terminates: `++params.retry === maxRetry` is an
equality test that such a run has already overshot. -/
lemma lockRun_diverge (provider : Nat → RawResponse) (hp : alwaysLock provider) :
    ∀ fuel a r, 5 ≤ r → saveUrlRun 5 provider fuel a r = none := by
  intro fuel
  induction fuel with
  | zero => intro a r _; rfl
  | succ fuel ih =>
    intro a r hr
    obtain ⟨body, msg, hpa, hb, hl⟩ := isLock_elim (hp a)
    have hne : ¬(r + 1 = 5) := by omega
    simp [saveUrlRun, hpa, hb, hl, hne, ih (a + 1) (r + 1) (by omega)]

/-- A run that sees `k` lock-contention responses followed by an error-free
body resolves that body after `k + 1` provider calls, with the delays
`300*(r+1), ..., 300*(r+k)`. -/
lemma lockRun_success (provider : Nat → RawResponse) (sbody : Body) :
    ∀ k a r fuel, (∀ i, i < k → isLockResponse (provider (a + i)) = true) →
      provider (a + k) = RawResponse.valid sbody → sbody.error = none →
      r + k < 5 → k < fuel →
      saveUrlRun 5 provider fuel a r =
        some (SaveResult.ok sbody, k + 1,
          (List.range k).map (fun i => 300 * (r + i + 1))) := by
  intro k
  induction k with
  | zero =>
    intro a r fuel _ hsucc herr _ hf
    obtain ⟨fuel, rfl⟩ : ∃ f, fuel = f + 1 := ⟨fuel - 1, by omega⟩
    have ha : provider a = RawResponse.valid sbody := by simpa using hsucc
    simp [saveUrlRun, ha, herr]
  | succ k ih =>
    intro a r fuel hlock hsucc herr hrk hf
    obtain ⟨fuel, rfl⟩ : ∃ f, fuel = f + 1 := ⟨fuel - 1, by omega⟩
    have h0 : isLockResponse (provider a) = true := by
      have := hlock 0 (by omega)
      simpa using this
    obtain ⟨body, msg, hpa, hb, hl⟩ := isLock_elim h0
    have hne : ¬(r + 1 = 5) := by omega
    have hrec := ih (a + 1) (r + 1) fuel
      (fun i hi => by
        have := hlock (i + 1) (by omega)
        have he : a + (i + 1) = a + 1 + i := by omega
        rwa [he] at this)
      (by rwa [show a + 1 + k = a + (k + 1) by omega])
      herr (by omega) (by omega)
    simp only [saveUrlRun, hpa, hb, hl, if_true, hne, if_false, hrec, Option.map_some]
    refine congrArg some ?_
    refine congrArg (Prod.mk (SaveResult.ok sbody)) ?_
    refine congrArg (Prod.mk (k + 1 + 1)) ?_
    rw [List.range_succ_eq_map, List.map_cons, List.map_map]
    refine congrArg (List.cons (300 * (r + 1))) ?_
    apply List.map_congr_left
    intro i _
    simp [Function.comp]
    ring

lemma rev_head_append (l1 l2 : List Char) (c : Char) (t : List Char)
    (h : l2.reverse = c :: t) : (l1 ++ l2).reverse.head? = some c := by
  rw [List.reverse_append, h]
  rfl

lemma eqOfDataEq {s t : String} (h : s.data = t.data) : s = t := by
  cases s; cases t; simp_all

/-- The saved-set key of any user differs from the global saved-count key
(they end in `.saved` and `.count` respectively). -/
lemma cacheKey_ne_totalKey (u : String) :
    Storage.getRedisCacheKey u ≠ Storage.totalSavedCountKey := by
  intro h
  have h2 : (Storage.getRedisCacheKey u).data.reverse.head? =
      Storage.totalSavedCountKey.data.reverse.head? := by rw [h]
  have hl : (Storage.getRedisCacheKey u).data.reverse.head? = some 'd' := by
    show (("picbox." ++ u ++ ".saved").data).reverse.head? = some 'd'
    rw [String.data_append]
    exact rev_head_append _ _ 'd' ['e', 'v', 'a', 's', '.'] (by decide)
  have hr : Storage.totalSavedCountKey.data.reverse.head? = some 't' := by decide
  rw [hl, hr] at h2
  exact absurd h2 (by decide)

/-- The saved-set key of any user differs from the saved-count key of any
user (they end in `.saved` and `.count` respectively). -/
lemma cacheKey_ne_userCountKey (u v : String) :
    Storage.getRedisCacheKey u ≠ Storage.getUserSavedCountKey v := by
  intro h
  have h2 : (Storage.getRedisCacheKey u).data.reverse.head? =
      (Storage.getUserSavedCountKey v).data.reverse.head? := by rw [h]
  have hl : (Storage.getRedisCacheKey u).data.reverse.head? = some 'd' := by
    show (("picbox." ++ u ++ ".saved").data).reverse.head? = some 'd'
    rw [String.data_append]
    exact rev_head_append _ _ 'd' ['e', 'v', 'a', 's', '.'] (by decide)
  have hr : (Storage.getUserSavedCountKey v).data.reverse.head? = some 't' := by
    show (("picbox." ++ v ++ ".saved.count").data).reverse.head? = some 't'
    rw [String.data_append]
    exact rev_head_append _ _ 't' ['n', 'u', 'o', 'c', '.', 'd', 'e', 'v', 'a', 's', '.'] (by decide)
  rw [hl, hr] at h2
  exact absurd h2 (by decide)

/-- Distinct users get distinct saved-set keys. -/
lemma cacheKey_inj {u v : String}
    (h : Storage.getRedisCacheKey u = Storage.getRedisCacheKey v) : u = v := by
  have hd := congrArg String.data h
  simp only [Storage.getRedisCacheKey, String.data_append, List.append_assoc] at hd
  have h1 := List.append_cancel_left hd
  have h2 := List.append_cancel_right h1
  exact eqOfDataEq h2

/-- ZADD of a uniform-score pair list built from `ids`: members of `ids`
get the score, the rest keep their old entry. -/
lemma zaddPairs_map_const (zs : String → Option Nat) (ids : List String)
    (now : Nat) (x : String) :
    Storage.zaddPairs zs (ids.map (fun m => (now, m))) x =
      if x ∈ ids then some now else zs x := by
  induction ids generalizing zs with
  | nil => simp [Storage.zaddPairs]
  | cons a as ih =>
    have h0 : Storage.zaddPairs zs ((a :: as).map (fun m => (now, m))) x =
        Storage.zaddPairs (fun m => if m = a then some now else zs m)
          (as.map (fun m => (now, m))) x := rfl
    rw [h0, ih]
    by_cases hx : x ∈ as <;> by_cases hxa : x = a <;> simp [hx, hxa]

/-! ## Claim theorems -/

/-- C1: for a job with initial retryCount 0, if the provider answers every
call with the transient lock-contention error, `saveUrlP` rejects with
`'Retries failed'` (RetriesExhausted) after exactly `maxRetry = 5` provider
calls; the delay before the k-th retry is `300*k` ms and the cumulative
backoff delay is `300*(1+2+3+4)` ms. -/
theorem c1_exhaustion_after_five_attempts (cfg : DropboxConfig)
    (provider : Nat → RawResponse) (hp : alwaysLock provider)
    (fuel : Nat) (hf : 5 ≤ fuel) :
    Dropbox.saveUrlP (Dropbox.init cfg) provider (some 0) fuel =
        some (SaveResult.retriesFailed, (Dropbox.init cfg).maxRetry,
          [300 * 1, 300 * 2, 300 * 3, 300 * 4]) ∧
      [300 * 1, 300 * 2, 300 * 3, 300 * 4].sum = 300 * (1 + 2 + 3 + 4) := by
  refine ⟨?_, by decide⟩
  have h := lockRun_exhaust provider hp 4 0 0 fuel (by omega) (by omega)
  show saveUrlRun 5 provider fuel 0 0 = _
  rw [h]
  rfl

/-- Witness for C1: a concrete always-lock provider, fuel 5. -/
theorem c1_exhaustion_after_five_attempts_witness :
    alwaysLock (fun _ => RawResponse.valid
        (Body.mk (some "Failed to grab locks, try again") none none)) ∧
      Dropbox.saveUrlP (Dropbox.init (DropboxConfig.mk "" "" ""))
          (fun _ => RawResponse.valid
            (Body.mk (some "Failed to grab locks, try again") none none))
          (some 0) 5 =
        some (SaveResult.retriesFailed,
          (Dropbox.init (DropboxConfig.mk "" "" "")).maxRetry,
          [300 * 1, 300 * 2, 300 * 3, 300 * 4]) := by
  have hp : alwaysLock (fun _ => RawResponse.valid
      (Body.mk (some "Failed to grab locks, try again") none none)) := fun _ => rfl
  exact ⟨hp,
    (c1_exhaustion_after_five_attempts (DropboxConfig.mk "" "" "") _ hp 5 (by decide)).1⟩

/-- C2: a provider response carrying an `error` field is classified by
message content.  A message not containing `'Failed to grab locks'` rejects
immediately as `PermanentError(message)` with exactly one provider call and
no delays; a message containing it is treated as transient: the retry count
is incremented and (below the ceiling) the loop continues after a
`300*(retry+1)` ms delay with one more provider call. -/
theorem c2_error_classification (cfg : DropboxConfig)
    (provider : Nat → RawResponse) (body : Body) (msg : String)
    (hp : provider 0 = RawResponse.valid body) (hm : body.error = some msg) :
    (hasLockError msg = false → ∀ fuel r,
      Dropbox.saveUrlP (Dropbox.init cfg) provider (some r) (fuel + 1) =
        some (SaveResult.permanentError msg, 1, [])) ∧
    (hasLockError msg = true → ∀ fuel r,
      ¬(r + 1 = (Dropbox.init cfg).maxRetry) →
      Dropbox.saveUrlP (Dropbox.init cfg) provider (some r) (fuel + 1) =
        (saveUrlRun (Dropbox.init cfg).maxRetry provider fuel 1 (r + 1)).map
          (fun o => (o.1, o.2.1 + 1, 300 * (r + 1) :: o.2.2))) := by
  constructor
  · intro hl fuel r
    show saveUrlRun 5 provider (fuel + 1) 0 r = _
    simp [saveUrlRun, hp, hm, hl]
  · intro hl fuel r hr
    have hr5 : ¬(r + 1 = 5) := hr
    show saveUrlRun 5 provider (fuel + 1) 0 r = _
    simp [saveUrlRun, hp, hm, hl, hr5]
    rfl

/-- Witness for C2: the permanent branch at the concrete message
`'Invalid OAuth token'`. -/
theorem c2_error_classification_witness :
    (fun (_ : Nat) => RawResponse.valid (Body.mk (some "Invalid OAuth token") none none)) 0 =
        RawResponse.valid (Body.mk (some "Invalid OAuth token") none none) ∧
      (Body.mk (some "Invalid OAuth token") none none).error = some "Invalid OAuth token" ∧
      hasLockError "Invalid OAuth token" = false ∧
      Dropbox.saveUrlP (Dropbox.init (DropboxConfig.mk "" "" ""))
          (fun _ => RawResponse.valid (Body.mk (some "Invalid OAuth token") none none))
          (some 0) 1 =
        some (SaveResult.permanentError "Invalid OAuth token", 1, []) := by
  refine ⟨rfl, rfl, by decide, ?_⟩
  exact (c2_error_classification (DropboxConfig.mk "" "" "") _ _ _ rfl rfl).1 (by decide) 0 0

/-- C3: with initial retryCount 0, a provider answering the first `k`
calls (`k < maxRetry - 1`) with the lock-contention error and the next call
with an error-free pending body carrying job id `J` makes `saveUrlP`
resolve that body after exactly `k` retries (`k + 1` provider calls), with
delays `300, 600, ..., 300*k` ms; the consumed retries do not change the
resolved value. -/
theorem c3_pending_after_k_retries (cfg : DropboxConfig)
    (provider : Nat → RawResponse) (k : Nat) (sbody : Body) (J : String)
    (hk : k < (Dropbox.init cfg).maxRetry - 1)
    (hlock : ∀ i, i < k → isLockResponse (provider i) = true)
    (hsucc : provider k = RawResponse.valid sbody)
    (herr : sbody.error = none) (_hjob : sbody.job = some J)
    (fuel : Nat) (hf : k < fuel) :
    Dropbox.saveUrlP (Dropbox.init cfg) provider (some 0) fuel =
      some (SaveResult.ok sbody, k + 1,
        (List.range k).map (fun i => 300 * (i + 1))) := by
  have hk4 : k < 4 := hk
  have h := lockRun_success provider sbody k 0 0 fuel
    (fun i hi => by simpa using hlock i hi)
    (by simpa using hsucc) herr (by omega) hf
  show saveUrlRun 5 provider fuel 0 0 = _
  rw [h]
  refine congrArg some (congrArg _ (congrArg _ ?_))
  apply List.map_congr_left
  intro i _
  simp

/-- Witness for C3: three lock errors then `{"status":"PENDING","job":"J2"}`. -/
theorem c3_pending_after_k_retries_witness :
    (3 : Nat) < (Dropbox.init (DropboxConfig.mk "" "" "")).maxRetry - 1 ∧
      (∀ i, i < 3 → isLockResponse
        ((fun n => if n < 3 then
            RawResponse.valid (Body.mk (some "Failed to grab locks, try again") none none)
          else RawResponse.valid (Body.mk none (some "PENDING") (some "J2"))) i) = true) ∧
      Dropbox.saveUrlP (Dropbox.init (DropboxConfig.mk "" "" ""))
          (fun n => if n < 3 then
            RawResponse.valid (Body.mk (some "Failed to grab locks, try again") none none)
          else RawResponse.valid (Body.mk none (some "PENDING") (some "J2")))
          (some 0) 4 =
        some (SaveResult.ok (Body.mk none (some "PENDING") (some "J2")), 3 + 1,
          (List.range 3).map (fun i => 300 * (i + 1))) := by
  refine ⟨by decide, by decide, ?_⟩
  exact c3_pending_after_k_retries (DropboxConfig.mk "" "" "") _ 3
    (Body.mk none (some "PENDING") (some "J2")) "J2"
    (by decide) (by decide) (by decide) rfl rfl 4 (by decide)

/-- C4: a response body that fails `JSON.parse` fails the run immediately
with the distinct malformed-response outcome: exactly one provider call, no
delays, and the outcome is neither a resolved body nor the exhausted- or
permanent-error rejections. -/
theorem c4_malformed_immediate (cfg : DropboxConfig)
    (provider : Nat → RawResponse) (raw : String)
    (hp : provider 0 = RawResponse.invalid raw) (fuel r : Nat) :
    Dropbox.saveUrlP (Dropbox.init cfg) provider (some r) (fuel + 1) =
        some (SaveResult.malformed raw, 1, []) ∧
      (∀ body, SaveResult.malformed raw ≠ SaveResult.ok body) ∧
      SaveResult.malformed raw ≠ SaveResult.retriesFailed ∧
      (∀ msg, SaveResult.malformed raw ≠ SaveResult.permanentError msg) := by
  refine ⟨?_, fun body => by simp, by simp, fun msg => by simp⟩
  show saveUrlRun 5 provider (fuel + 1) 0 r = _
  simp [saveUrlRun, hp]

/-- Witness for C4 at a concrete unparsable body. -/
theorem c4_malformed_immediate_witness :
    (fun (_ : Nat) => RawResponse.invalid "<html>502</html>") 0 =
        RawResponse.invalid "<html>502</html>" ∧
      Dropbox.saveUrlP (Dropbox.init (DropboxConfig.mk "" "" ""))
          (fun _ => RawResponse.invalid "<html>502</html>") (some 0) 1 =
        some (SaveResult.malformed "<html>502</html>", 1, []) := by
  refine ⟨rfl, ?_⟩
  exact (c4_malformed_immediate (DropboxConfig.mk "" "" "")
    (fun _ => RawResponse.invalid "<html>502</html>") "<html>502</html>" rfl 0 0).1

/-- C10: the exhaustion test `++params.retry === maxRetry` is an equality
check, so under an always-lock provider a run whose initial retry count is
already at or above `maxRetry = 5` never terminates (no fuel suffices) and
`'Retries failed'` is never produced, while a run starting strictly below
the ceiling terminates with `'Retries failed'` after `maxRetry - retry`
provider calls. -/
theorem c10_exhaustion_needs_low_initial_retry (cfg : DropboxConfig)
    (provider : Nat → RawResponse) (hp : alwaysLock provider) :
    (∀ r, (Dropbox.init cfg).maxRetry ≤ r → ∀ fuel,
      Dropbox.saveUrlP (Dropbox.init cfg) provider (some r) fuel = none) ∧
    (∀ r, r < (Dropbox.init cfg).maxRetry →
      ∀ fuel, (Dropbox.init cfg).maxRetry - r ≤ fuel →
      Dropbox.saveUrlP (Dropbox.init cfg) provider (some r) fuel =
        some (SaveResult.retriesFailed, (Dropbox.init cfg).maxRetry - r,
          (List.range ((Dropbox.init cfg).maxRetry - r - 1)).map
            (fun i => 300 * (r + i + 1)))) := by
  constructor
  · intro r hr fuel
    exact lockRun_diverge provider hp fuel 0 r hr
  · intro r hr fuel hf
    have hr5 : r < 5 := hr
    have hf5 : 5 - r ≤ fuel := hf
    have h := lockRun_exhaust provider hp (4 - r) 0 r fuel (by omega) (by omega)
    have e1 : (Dropbox.init cfg).maxRetry - r = 4 - r + 1 := by
      show 5 - r = 4 - r + 1
      omega
    have e2 : (Dropbox.init cfg).maxRetry - r - 1 = 4 - r := by
      show 5 - r - 1 = 4 - r
      omega
    rw [e2, e1]
    exact h

/-- Witness for C10: with initial retry 7 the run exceeds any fuel; with
initial retry 3 it terminates after two calls. -/
theorem c10_exhaustion_needs_low_initial_retry_witness :
    alwaysLock (fun _ => RawResponse.valid
        (Body.mk (some "Failed to grab locks, try again") none none)) ∧
      Dropbox.saveUrlP (Dropbox.init (DropboxConfig.mk "" "" ""))
          (fun _ => RawResponse.valid
            (Body.mk (some "Failed to grab locks, try again") none none))
          (some 7) 40 = none ∧
      Dropbox.saveUrlP (Dropbox.init (DropboxConfig.mk "" "" ""))
          (fun _ => RawResponse.valid
            (Body.mk (some "Failed to grab locks, try again") none none))
          (some 3) 2 =
        some (SaveResult.retriesFailed,
          (Dropbox.init (DropboxConfig.mk "" "" "")).maxRetry - 3,
          (List.range ((Dropbox.init (DropboxConfig.mk "" "" "")).maxRetry - 3 - 1)).map
            (fun i => 300 * (3 + i + 1))) := by
  have hp : alwaysLock (fun _ => RawResponse.valid
      (Body.mk (some "Failed to grab locks, try again") none none)) := fun _ => rfl
  refine ⟨hp, ?_, ?_⟩
  · exact (c10_exhaustion_needs_low_initial_retry (DropboxConfig.mk "" "" "") _ hp).1
      7 (by decide) 40
  · exact (c10_exhaustion_needs_low_initial_retry (DropboxConfig.mk "" "" "") _ hp).2
      3 (by decide) 2 (by decide)

/-- A sequence of core operations none of which inserts `m` for `u` keeps
`u`'s saved set free of `m`. -/
lemma no_insert_keeps_unset (u m : String) :
    ∀ ops : List CoreOp, (∀ op ∈ ops, ¬ insertsFor u m op) →
      ∀ st : RedisState, st.zsets (Storage.getRedisCacheKey u) m = none →
      (runOps ops st).zsets (Storage.getRedisCacheKey u) m = none := by
  intro ops
  induction ops with
  | nil => intro _ st hst; exact hst
  | cons op rest ih =>
    intro hops st hst
    have hstep : (applyOp st op).zsets (Storage.getRedisCacheKey u) m = none := by
      cases op with
      | incUser u2 c =>
        simpa [applyOp, Storage.incUserSavedCount, Storage.redisIncrby] using hst
      | incTotal c =>
        simpa [applyOp, Storage.incTotalSavedCount, Storage.redisIncrby] using hst
      | delCache u2 =>
        by_cases hk : Storage.getRedisCacheKey u = Storage.getRedisCacheKey u2
        · simp [applyOp, Storage.deleteLikedCache, Storage.redisDel, hk]
        · simpa [applyOp, Storage.deleteLikedCache, Storage.redisDel, hk] using hst
      | save u2 ids replace now =>
        have hni : ¬ insertsFor u m (CoreOp.save u2 ids replace now) :=
          hops _ (List.mem_cons_self _ _)
        by_cases hk : Storage.getRedisCacheKey u = Storage.getRedisCacheKey u2
        · have hu : u2 = u := (cacheKey_inj hk).symm
          have hm2 : m ∉ ids := fun hmem => hni ⟨hu, hmem⟩
          cases replace <;>
            simp [applyOp, Storage.saveLikedMedia, Storage.redisZadd, Storage.redisDel,
              ← hk, zaddPairs_map_const, hm2, hst]
        · cases replace <;>
            simpa [applyOp, Storage.saveLikedMedia, Storage.redisZadd, Storage.redisDel,
              hk, zaddPairs_map_const] using hst
    have hrest : ∀ op2 ∈ rest, ¬ insertsFor u m op2 :=
      fun op2 h2 => hops op2 (List.mem_cons_of_mem _ h2)
    exact ih hrest _ hstep

/-- C5: `saveLikedMedia` with `replace = true` discards the user's whole
saved set and replaces it with exactly the given ids: afterwards
`checkMediaSaved` is false on every id outside the list — whatever the
prior contents — and true on every id in it. -/
theorem c5_replace_is_destructive (st : RedisState) (u : String)
    (ids : List String) (now : Nat) (x : String) :
    (x ∉ ids →
      Storage.checkMediaSaved (Storage.saveLikedMedia st u ids true now) u x = false) ∧
    (x ∈ ids →
      Storage.checkMediaSaved (Storage.saveLikedMedia st u ids true now) u x = true) := by
  constructor <;> intro hx <;>
    simp [Storage.checkMediaSaved, Storage.saveLikedMedia, Storage.redisZadd,
      Storage.redisZscore, Storage.redisDel, zaddPairs_map_const, hx]

/-- Witness for C5: `m1` was present before the replace by `[m3]` and is
gone after; `m3` is present. -/
theorem c5_replace_is_destructive_witness :
    "m1" ∉ ["m3"] ∧
      Storage.checkMediaSaved
        (Storage.saveLikedMedia
          (Storage.saveLikedMedia emptyRedis "U1" ["m1", "m2"] false 100)
          "U1" ["m3"] true 200) "U1" "m1" = false ∧
      "m3" ∈ ["m3"] ∧
      Storage.checkMediaSaved
        (Storage.saveLikedMedia
          (Storage.saveLikedMedia emptyRedis "U1" ["m1", "m2"] false 100)
          "U1" ["m3"] true 200) "U1" "m3" = true := by
  refine ⟨by decide, ?_, by decide, ?_⟩
  · exact (c5_replace_is_destructive
      (Storage.saveLikedMedia emptyRedis "U1" ["m1", "m2"] false 100)
      "U1" ["m3"] 200 "m1").1 (by decide)
  · exact (c5_replace_is_destructive
      (Storage.saveLikedMedia emptyRedis "U1" ["m1", "m2"] false 100)
      "U1" ["m3"] 200 "m3").2 (by decide)

/-- C6: `checkMediaSaved` is false for an id never inserted for the user
(over any sequence of core operations from the empty store), and true
immediately after a `saveLikedMedia` of that id for the same user. -/
theorem c6_contains_after_insert (u m : String) :
    (∀ ops : List CoreOp, (∀ op ∈ ops, ¬ insertsFor u m op) →
      Storage.checkMediaSaved (runOps ops emptyRedis) u m = false) ∧
    (∀ (st : RedisState) (replace : Bool) (now : Nat),
      Storage.checkMediaSaved (Storage.saveLikedMedia st u [m] replace now) u m = true) := by
  constructor
  · intro ops hops
    have h := no_insert_keeps_unset u m ops hops emptyRedis rfl
    simp [Storage.checkMediaSaved, Storage.redisZscore, h]
  · intro st replace now
    cases replace <;>
      simp [Storage.checkMediaSaved, Storage.saveLikedMedia, Storage.redisZadd,
        Storage.redisZscore, Storage.redisDel, Storage.zaddPairs]

/-- Witness for C6: a trace that never inserts `m9` for `U1` leaves
`checkMediaSaved` false, and inserting it flips it to true. -/
theorem c6_contains_after_insert_witness :
    (∀ op ∈ [CoreOp.incUser "U1" 3, CoreOp.save "U2" ["m9"] false 50,
        CoreOp.delCache "U1"], ¬ insertsFor "U1" "m9" op) ∧
      Storage.checkMediaSaved
        (runOps [CoreOp.incUser "U1" 3, CoreOp.save "U2" ["m9"] false 50,
          CoreOp.delCache "U1"] emptyRedis) "U1" "m9" = false ∧
      Storage.checkMediaSaved
        (Storage.saveLikedMedia emptyRedis "U1" ["m9"] false 77) "U1" "m9" = true := by
  have hops : ∀ op ∈ [CoreOp.incUser "U1" 3, CoreOp.save "U2" ["m9"] false 50,
      CoreOp.delCache "U1"], ¬ insertsFor "U1" "m9" op := by
    intro op hop
    simp only [List.mem_cons, List.not_mem_nil, or_false] at hop
    rcases hop with rfl | rfl | rfl
    · simp [insertsFor]
    · rintro ⟨h1, -⟩
      exact absurd h1 (by decide)
    · simp [insertsFor]
  exact ⟨hops, (c6_contains_after_insert "U1" "m9").1 _ hops,
    (c6_contains_after_insert "U1" "m9").2 emptyRedis false 77⟩

/-- C7: `saveLikedMedia` with `replace = false` removes nothing: every id
present before is present after; an id in the list gets its score set to
the insert time (an upsert, whether or not it was present); ids outside the
list keep their entry; and no other key — in particular no counter — is
touched (the 20-entry capping is commented out in the source, so nothing is
evicted). -/
theorem c7_nonreplace_never_removes (st : RedisState) (u : String)
    (ids : List String) (now : Nat) (x : String) :
    (Storage.checkMediaSaved st u x = true →
      Storage.checkMediaSaved (Storage.saveLikedMedia st u ids false now) u x = true) ∧
    (x ∈ ids →
      (Storage.saveLikedMedia st u ids false now).zsets
        (Storage.getRedisCacheKey u) x = some now) ∧
    (x ∉ ids →
      (Storage.saveLikedMedia st u ids false now).zsets
        (Storage.getRedisCacheKey u) x = st.zsets (Storage.getRedisCacheKey u) x) ∧
    (Storage.saveLikedMedia st u ids false now).strs = st.strs := by
  refine ⟨?_, ?_, ?_, rfl⟩
  · intro hx
    by_cases hmem : x ∈ ids <;>
      simp_all [Storage.checkMediaSaved, Storage.saveLikedMedia, Storage.redisZadd,
        Storage.redisZscore, zaddPairs_map_const]
  · intro hmem
    simp [Storage.saveLikedMedia, Storage.redisZadd, zaddPairs_map_const, hmem]
  · intro hmem
    simp [Storage.saveLikedMedia, Storage.redisZadd, zaddPairs_map_const, hmem]

/-- Witness for C7: re-inserting `m2` alongside `m3` keeps `m1` present. -/
theorem c7_nonreplace_never_removes_witness :
    Storage.checkMediaSaved
        (Storage.saveLikedMedia emptyRedis "U1" ["m1", "m2"] false 100) "U1" "m1" = true ∧
      Storage.checkMediaSaved
        (Storage.saveLikedMedia
          (Storage.saveLikedMedia emptyRedis "U1" ["m1", "m2"] false 100)
          "U1" ["m2", "m3"] false 200) "U1" "m1" = true := by
  refine ⟨by decide, ?_⟩
  exact (c7_nonreplace_never_removes
    (Storage.saveLikedMedia emptyRedis "U1" ["m1", "m2"] false 100)
    "U1" ["m2", "m3"] 200 "m1").1 (by decide)

/-- C8: `incUserSavedCount` and `incTotalSavedCount` resolve `!!reply`,
i.e. true exactly when the counter value after the increment is non-zero;
in particular incrementing a zero (or absent) counter by 0 resolves
false. -/
theorem c8_inc_truthy_iff_nonzero (st : RedisState) (u : String) (c : Int)
    (_hc : 0 ≤ c) :
    ((Storage.incUserSavedCount st u c).2 = true ↔
      counterVal (Storage.incUserSavedCount st u c).1
        (Storage.getUserSavedCountKey u) ≠ 0) ∧
    ((Storage.incTotalSavedCount st c).2 = true ↔
      counterVal (Storage.incTotalSavedCount st c).1
        Storage.totalSavedCountKey ≠ 0) ∧
    (counterVal st (Storage.getUserSavedCountKey u) = 0 → c = 0 →
      (Storage.incUserSavedCount st u c).2 = false) ∧
    (counterVal st Storage.totalSavedCountKey = 0 → c = 0 →
      (Storage.incTotalSavedCount st c).2 = false) := by
  refine ⟨?_, ?_, ?_, ?_⟩
  · simp [Storage.incUserSavedCount, Storage.redisIncrby, counterVal, bne_iff_ne]
  · simp [Storage.incTotalSavedCount, Storage.redisIncrby, counterVal, bne_iff_ne]
  · intro h0 hc0
    simp_all [Storage.incUserSavedCount, Storage.redisIncrby, counterVal]
  · intro h0 hc0
    simp_all [Storage.incTotalSavedCount, Storage.redisIncrby, counterVal]

/-- Witness for C8: incrementing the empty store's counters by 0. -/
theorem c8_inc_truthy_iff_nonzero_witness :
    (0 : Int) ≤ 0 ∧
      ((Storage.incUserSavedCount emptyRedis "U1" 0).2 = true ↔
        counterVal (Storage.incUserSavedCount emptyRedis "U1" 0).1
          (Storage.getUserSavedCountKey "U1") ≠ 0) ∧
      (counterVal emptyRedis (Storage.getUserSavedCountKey "U1") = 0 → (0 : Int) = 0 →
        (Storage.incUserSavedCount emptyRedis "U1" 0).2 = false) := by
  refine ⟨by decide, ?_, ?_⟩
  · exact (c8_inc_truthy_iff_nonzero emptyRedis "U1" 0 (by decide)).1
  · exact (c8_inc_truthy_iff_nonzero emptyRedis "U1" 0 (by decide)).2.2.1

/-- One core operation with non-negative counts never decreases a counter
key: the increments add a non-negative amount, and the set operations
address saved-set keys, which are distinct strings from every counter
key. -/
lemma applyOp_counter_mono (st : RedisState) (op : CoreOp)
    (hop : CoreOp.nonNeg op) (k : String) (hk : isCounterKey k) :
    counterVal st k ≤ counterVal (applyOp st op) k := by
  cases op with
  | incUser u2 c =>
    have hc : 0 ≤ c := hop
    by_cases hkey : k = Storage.getUserSavedCountKey u2
    · simp [applyOp, Storage.incUserSavedCount, Storage.redisIncrby, counterVal, hkey]
      linarith
    · simp [applyOp, Storage.incUserSavedCount, Storage.redisIncrby, counterVal, hkey]
  | incTotal c =>
    have hc : 0 ≤ c := hop
    by_cases hkey : k = Storage.totalSavedCountKey
    · simp [applyOp, Storage.incTotalSavedCount, Storage.redisIncrby, counterVal, hkey]
      linarith
    · simp [applyOp, Storage.incTotalSavedCount, Storage.redisIncrby, counterVal, hkey]
  | delCache u2 =>
    have hne : ¬(k = Storage.getRedisCacheKey u2) := by
      rcases hk with ⟨u3, rfl⟩ | rfl
      · exact fun h => cacheKey_ne_userCountKey u2 u3 h.symm
      · exact fun h => cacheKey_ne_totalKey u2 h.symm
    simp [applyOp, Storage.deleteLikedCache, Storage.redisDel, counterVal, hne]
  | save u2 ids replace now =>
    have hne : ¬(k = Storage.getRedisCacheKey u2) := by
      rcases hk with ⟨u3, rfl⟩ | rfl
      · exact fun h => cacheKey_ne_userCountKey u2 u3 h.symm
      · exact fun h => cacheKey_ne_totalKey u2 h.symm
    cases replace <;>
      simp [applyOp, Storage.saveLikedMedia, Storage.redisZadd, Storage.redisDel,
        counterVal, hne]

lemma runOps_counter_mono (ops : List CoreOp)
    (hops : ∀ op ∈ ops, CoreOp.nonNeg op) (st : RedisState) (k : String)
    (hk : isCounterKey k) :
    counterVal st k ≤ counterVal (runOps ops st) k := by
  induction ops generalizing st with
  | nil => exact le_refl _
  | cons op rest ih =>
    exact le_trans (applyOp_counter_mono st op (hops _ (List.mem_cons_self _ _)) k hk)
      (ih (fun o ho => hops o (List.mem_cons_of_mem _ ho)) (applyOp st op))

/-- C9: over any sequence of core operations whose increment counts are
non-negative, the per-user saved counters and the global saved counter are
monotonically non-decreasing — no core operation decreases or resets
them. -/
theorem c9_counters_monotone (ops : List CoreOp)
    (hops : ∀ op ∈ ops, CoreOp.nonNeg op) (st : RedisState) :
    (∀ u, counterVal st (Storage.getUserSavedCountKey u) ≤
      counterVal (runOps ops st) (Storage.getUserSavedCountKey u)) ∧
    counterVal st Storage.totalSavedCountKey ≤
      counterVal (runOps ops st) Storage.totalSavedCountKey :=
  ⟨fun u => runOps_counter_mono ops hops st _ (Or.inl ⟨u, rfl⟩),
    runOps_counter_mono ops hops st _ (Or.inr rfl)⟩

/-- Witness for C9: a concrete mixed trace with non-negative counts. -/
theorem c9_counters_monotone_witness :
    (∀ op ∈ [CoreOp.incUser "U1" 2, CoreOp.incTotal 3, CoreOp.delCache "U1",
        CoreOp.save "U1" ["m1"] true 10], CoreOp.nonNeg op) ∧
      counterVal emptyRedis (Storage.getUserSavedCountKey "U1") ≤
        counterVal (runOps [CoreOp.incUser "U1" 2, CoreOp.incTotal 3,
          CoreOp.delCache "U1", CoreOp.save "U1" ["m1"] true 10] emptyRedis)
          (Storage.getUserSavedCountKey "U1") := by
  have hops : ∀ op ∈ [CoreOp.incUser "U1" 2, CoreOp.incTotal 3, CoreOp.delCache "U1",
      CoreOp.save "U1" ["m1"] true 10], CoreOp.nonNeg op := by
    intro op hop
    simp only [List.mem_cons, List.not_mem_nil, or_false] at hop
    rcases hop with rfl | rfl | rfl | rfl
    · show (0 : Int) ≤ 2
      decide
    · show (0 : Int) ≤ 3
      decide
    · trivial
    · trivial
  exact ⟨hops, (c9_counters_monotone _ hops emptyRedis).1 "U1"⟩

end Picbox
